import Mathlib

/-!
Verification of the resilient Asterisk ARI websocket event client
(`api_websocket.go` and `examples/main.go`).

Part 1 embeds the event-envelope codec: decoding a JSON payload into a
`StasisEvent` via Go `encoding/json` semantics, including the custom
`StasisTimestampEvent.UnmarshalJSON` which strips the surrounding quote
bytes and parses against the fixed layout `2006-01-02T15:04:05.000-0700`.

Part 2 embeds the reconnect loop `connectWebSocketAndStartStasis` as a
small-step state machine driven by an oracle event trace.
-/

/-- A parsed JSON document.  `num` keeps the raw numeric text, because the
custom timestamp unmarshaler receives the raw bytes of the JSON value and
their length matters (Go slices them unconditionally). -/
inductive Json where
  | null : Json
  | bool : Bool → Json
  | num : String → Json
  | str : String → Json
  | arr : List Json → Json
  | obj : List (String × Json) → Json

mutual

/-- Canonical serialization of a JSON value, as a byte (char) list.  This is
what Go hands to a field's custom `UnmarshalJSON`: the raw bytes of that
value inside the payload. -/
def rawChars : Json → List Char
  | .num s => s.data
  | .str s => '"' :: s.data ++ ['"']
  | .bool b => if b then "true".data else "false".data
  | .null => "null".data
  | .arr xs => '[' :: (rawList xs).concat ']'
  | .obj fs => '{' :: (rawFields fs).concat '}'

/-- Comma-separated serialization of array elements. -/
def rawList : List Json → List Char
  | [] => []
  | [x] => rawChars x
  | x :: xs => rawChars x ++ ',' :: rawList xs

/-- Comma-separated serialization of object members. -/
def rawFields : List (String × Json) → List Char
  | [] => []
  | [(k, v)] => '"' :: k.data ++ '"' :: ':' :: rawChars v
  | (k, v) :: fs => '"' :: k.data ++ '"' :: ':' :: rawChars v ++ ',' :: rawFields fs

end

/-- The components of a timestamp parsed by `time.Parse` against the layout
`2006-01-02T15:04:05.000-0700` (year, month, day, hour, minute, second,
milliseconds, and the numeric UTC offset sign/hours/minutes). -/
structure EventTime where
  year : Nat
  month : Nat
  day : Nat
  hour : Nat
  minute : Nat
  second : Nat
  milli : Nat
  offNeg : Bool
  offH : Nat
  offM : Nat
deriving DecidableEq, Repr

/-- Numeric value of a decimal digit character. -/
def digitVal (c : Char) : Nat := c.toNat - '0'.toNat

/-- Go `getnum` with `fixed = true`: exactly two digits. -/
def num2 : List Char → Option (Nat × List Char)
  | a :: b :: rest =>
    if a.isDigit && b.isDigit then some (10 * digitVal a + digitVal b, rest) else none
  | _ => none

/-- Go `getnum` with `fixed = false`, used for the hour element `15`:
two digits when the second character is a digit, otherwise one digit. -/
def numHour : List Char → Option (Nat × List Char)
  | a :: b :: rest =>
    if a.isDigit then
      if b.isDigit then some (10 * digitVal a + digitVal b, rest)
      else some (digitVal a, b :: rest)
    else none
  | [a] => if a.isDigit then some (digitVal a, []) else none
  | [] => none

/-- The four-digit year element `2006`. -/
def num4 : List Char → Option (Nat × List Char)
  | a :: b :: c :: d :: rest =>
    if a.isDigit && b.isDigit && c.isDigit && d.isDigit then
      some (1000 * digitVal a + 100 * digitVal b + 10 * digitVal c + digitVal d, rest)
    else none
  | _ => none

/-- A literal layout character must match exactly. -/
def lit (c : Char) : List Char → Option (List Char)
  | x :: rest => if x = c then some rest else none
  | [] => none

/-- The fractional-second element `.000`: a period (or comma, which Go's
`parseNanoseconds` also accepts) followed by three bytes read with Go `atoi`
semantics (an optional leading sign; a negative fraction is rejected by the
range check, so only `-00` slips through as zero). -/
def frac3 : List Char → Option (Nat × List Char)
  | s :: a :: b :: c :: rest =>
    if s = '.' || s = ',' then
      if a = '+' then
        if b.isDigit && c.isDigit then some (10 * digitVal b + digitVal c, rest) else none
      else if a = '-' then
        if b = '0' && c = '0' then some (0, rest) else none
      else if a.isDigit && b.isDigit && c.isDigit then
        some (100 * digitVal a + 10 * digitVal b + digitVal c, rest)
      else none
    else none
  | _ => none

/-- The numeric zone element `-0700`: a mandatory sign and four digits.
Go performs no range check on the offset value.  A literal `Z` is not
accepted for this layout element (only the ISO8601 `Z0700` family takes it). -/
def signTZ : List Char → Option (Bool × Nat × Nat × List Char)
  | s :: h1 :: h2 :: m1 :: m2 :: rest =>
    if h1.isDigit && h2.isDigit && m1.isDigit && m2.isDigit then
      if s = '+' then some (false, 10 * digitVal h1 + digitVal h2, 10 * digitVal m1 + digitVal m2, rest)
      else if s = '-' then some (true, 10 * digitVal h1 + digitVal h2, 10 * digitVal m1 + digitVal m2, rest)
      else none
    else none
  | _ => none

/-- Go `isLeap`. -/
def isLeap (y : Nat) : Bool := y % 4 == 0 && (y % 100 != 0 || y % 400 == 0)

/-- Go `daysIn`: number of days in a month, accounting for leap years. -/
def daysIn (m y : Nat) : Nat :=
  if m = 2 then (if isLeap y then 29 else 28)
  else if m = 4 || m = 6 || m = 9 || m = 11 then 30
  else 31

/-- Model of `time.Parse("2006-01-02T15:04:05.000-0700", s)`: element-wise
parsing with Go's per-element range checks (hour < 24, minute < 60,
second < 60 during the scan; month and day-of-month after it), rejecting
trailing text. -/
def parseEventTime (cs : List Char) : Option EventTime := do
  let (y, r) ← num4 cs
  let r ← lit '-' r
  let (mo, r) ← num2 r
  let r ← lit '-' r
  let (d, r) ← num2 r
  let r ← lit 'T' r
  let (h, r) ← numHour r
  if 24 ≤ h then none else do
  let r ← lit ':' r
  let (mi, r) ← num2 r
  if 60 ≤ mi then none else do
  let r ← lit ':' r
  let (sec, r) ← num2 r
  if 60 ≤ sec then none else do
  let (ms, r) ← frac3 r
  let (neg, oh, om, r) ← signTZ r
  if r ≠ [] then none else do
  if mo < 1 || 12 < mo then none else do
  if d < 1 || daysIn mo y < d then none else do
  some ⟨y, mo, d, h, mi, sec, ms, neg, oh, om⟩

/-- The decoded event envelope, Go struct `StasisEvent`.  The `Channel` struct
is defined elsewhere in the repository (not under `src/`); modelled from the
spec, which treats `channel` as an opaque nested structure held as
pass-through data, we keep the raw JSON value.  `variable'` stands for the Go
field `Variable` (`variable` is a Lean keyword). -/
structure StasisEvent where
  application : String
  args : List String
  asteriskId : String
  channel : Json
  timestamp : EventTime
  type : String
  value : String
  variable' : String

/-- Go's zero `time.Time` is January 1, year 1, 00:00:00 UTC. -/
def zeroEventTime : EventTime := ⟨1, 1, 1, 0, 0, 0, 0, false, 0, 0⟩

/-- The zero value of the `StasisEvent` struct, the starting point of
`json.Unmarshal`. -/
def zeroStasisEvent : StasisEvent := ⟨"", [], "", .null, zeroEventTime, "", "", ""⟩

/-- Reason a decode aborted mid-way: an error returned by a custom
`UnmarshalJSON` (which `encoding/json` propagates immediately), or a runtime
panic raised inside it. -/
inductive AbortReason where
  | err : String → AbortReason
  | panicked : String → AbortReason
deriving DecidableEq

/-- Decoder state while folding over an object's members: either still going
(with the first saved type error, if any — Go's `saveError` keeps the first
and continues), or aborted. -/
inductive DecState where
  | going : StasisEvent → Option String → DecState
  | aborted : AbortReason → DecState

/-- Result of `json.Unmarshal` of one payload into `StasisEvent`: an
envelope, an error, or a runtime panic escaping the caller. -/
inductive Outcome where
  | ok : StasisEvent → Outcome
  | err : String → Outcome
  | panicked : String → Outcome

def Outcome.isOk : Outcome → Bool
  | .ok _ => true
  | _ => false

def Outcome.isErr : Outcome → Bool
  | .err _ => true
  | _ => false

def Outcome.isPanicked : Outcome → Bool
  | .panicked _ => true
  | _ => false

/-- Keep the first saved error, as Go's `d.saveError` does. -/
def savedOr (s : Option String) (m : String) : Option String :=
  match s with
  | some m0 => some m0
  | none => some m

/-- ASCII lower-casing, Go's field-name folding since `encoding/json` matches
keys to field tags ASCII-case-insensitively. -/
def asciiLower (c : Char) : Char :=
  if 'A' ≤ c ∧ c ≤ 'Z' then Char.ofNat (c.toNat + 32) else c

/-- Case-insensitive (ASCII) match of an incoming object key against a field
tag, Go's `foldName` equality. -/
def foldNameEq (a b : String) : Bool :=
  a.data.map asciiLower == b.data.map asciiLower

/-- Decoding a JSON value into a Go `string` field: a string sets it, `null`
is a no-op, anything else records an `UnmarshalTypeError` (first one kept)
and decoding continues. -/
def strFieldStep (v : Json) (upd : String → StasisEvent) (e : StasisEvent)
    (saved : Option String) : DecState :=
  match v with
  | .str s => .going (upd s) saved
  | .null => .going e saved
  | _ => .going e (savedOr saved "json: cannot unmarshal value into Go struct field of type string")

/-- String value of one `args` element; a non-string element leaves the
zero value in the slice. -/
def argElem : Json → String
  | .str s => s
  | _ => ""

/-- Whether an `args` element triggers an `UnmarshalTypeError`
(`null` is a no-op, a string is fine, everything else errors). -/
def argElemBad : Json → Bool
  | .str _ => false
  | .null => false
  | _ => true

/-- Decoding a JSON value into the `Args []string` field. -/
def argsStep (v : Json) (e : StasisEvent) (saved : Option String) : DecState :=
  match v with
  | .arr xs =>
    .going { e with args := xs.map argElem }
      (if xs.any argElemBad then
        savedOr saved "json: cannot unmarshal value into Go struct field of type string"
      else saved)
  | .null => .going e saved
  | _ => .going e (savedOr saved "json: cannot unmarshal value into Go struct field of type []string")

/-- Modelled from the spec: the `Channel` struct itself is defined outside
`src/`, and the spec treats `channel` as "an opaque nested structure …
treated as pass-through data".  A JSON object is accepted opaquely, `null`
is a no-op, any other value records a type error. -/
def channelStep (v : Json) (e : StasisEvent) (saved : Option String) : DecState :=
  match v with
  | .obj fs => .going { e with channel := .obj fs } saved
  | .null => .going e saved
  | _ => .going e (savedOr saved "json: cannot unmarshal value into Go struct field of type Channel")

/-- The custom `StasisTimestampEvent.UnmarshalJSON`: it receives the raw
bytes of the JSON value, strips the first and last byte unconditionally
(`timestampStr[1 : len(timestampStr)-1]`, which panics with a slice-bounds
error when the value is shorter than two bytes), and parses the rest against
the fixed layout.  A parse error is returned to `encoding/json`, which
aborts the whole envelope decode with it. -/
def timestampStep (v : Json) (e : StasisEvent) (saved : Option String) : DecState :=
  if (rawChars v).length < 2 then
    .aborted (.panicked "runtime error: slice bounds out of range")
  else
    match parseEventTime ((rawChars v).drop 1).dropLast with
    | some t => .going { e with timestamp := t } saved
    | none => .aborted (.err "parsing time: cannot parse as 2006-01-02T15:04:05.000-0700")

/-- Processing one object member `(key, value)` of the payload: dispatch on
the key (ASCII-case-insensitively, as Go does) to the tagged fields of
`StasisEvent`; unknown keys are skipped. -/
def stepField : DecState → String × Json → DecState
  | .aborted r, _ => .aborted r
  | .going e saved, (k, v) =>
    if foldNameEq k "application" = true then
      strFieldStep v (fun s => { e with application := s }) e saved
    else if foldNameEq k "args" = true then argsStep v e saved
    else if foldNameEq k "asterisk_id" = true then
      strFieldStep v (fun s => { e with asteriskId := s }) e saved
    else if foldNameEq k "channel" = true then channelStep v e saved
    else if foldNameEq k "timestamp" = true then timestampStep v e saved
    else if foldNameEq k "type" = true then
      strFieldStep v (fun s => { e with type := s }) e saved
    else if foldNameEq k "value" = true then
      strFieldStep v (fun s => { e with value := s }) e saved
    else if foldNameEq k "variable" = true then
      strFieldStep v (fun s => { e with variable' := s }) e saved
    else .going e saved

/-- Fold the decoder over an object's members in order. -/
def decodeFields (st : DecState) (fields : List (String × Json)) : DecState :=
  fields.foldl stepField st

/-- Turn the final decoder state into the `json.Unmarshal` result: the first
saved type error (if any) is returned, otherwise the envelope. -/
def finish : DecState → Outcome
  | .going e none => .ok e
  | .going _ (some m) => .err m
  | .aborted (.err m) => .err m
  | .aborted (.panicked m) => .panicked m

/-- `json.Unmarshal(message, &event)` for `event : StasisEvent`: a JSON
object is decoded member-wise, a top-level `null` is a no-op (success with
the zero value), and any other top-level value is an `UnmarshalTypeError`. -/
def unmarshalStasisEvent : Json → Outcome
  | .obj fields => finish (decodeFields (.going zeroStasisEvent none) fields)
  | .null => .ok zeroStasisEvent
  | _ => .err "json: cannot unmarshal value into Go value of type StasisEvent"

/-!
Part 2: the reconnect worker `connectWebSocketAndStartStasis` as a
small-step machine.  Program locations follow the Go control flow: the
top-of-loop cancellation check (line 92), the dial (line 98), the dial-failure
backoff wait (lines 102–107), the receive loop's cancellation check
(line 120), the blocking read (line 126), and the outer reconnect wait
(lines 156–161).  `defer wsConn.Close()` is modelled by a defer stack of
connection ids; as in Go, deferred calls run only when the function returns
(or a panic unwinds), last-in first-out, with the receiver evaluated at
defer-registration time.
-/

/-- `initialDelay = 1 * time.Second`, in seconds. -/
def initialDelay : Nat := 1

/-- `maxDelay = 60 * time.Second`, in seconds. -/
def maxDelay : Nat := 60

/-- Program locations of the worker. -/
inductive Loc where
  | top : Loc
  | dial : Loc
  | backoffDial : Loc
  | recvCheck : Loc
  | read : Loc
  | backoffOuter : Loc
  | terminated : Loc
  | panicked : Loc
deriving DecidableEq

/-- Oracle events driving the worker: cancellation observations at `select`
points, dial outcomes, read outcomes (a successful read carries the parsed
payload), and backoff-timer expiry. -/
inductive Ev where
  | cancelled : Ev
  | notCancelled : Ev
  | dialOk : Ev
  | dialFail : Ev
  | readOk : Json → Ev
  | readErr : Ev
  | elapse : Ev

/-- Observable emissions (logging collaborator plus the performed backoff
waits), most recent first. -/
inductive Out where
  | logDialFail : Out
  | logConnected : Out
  | logReadErr : Out
  | logDecodeErr : Out
  | logEvent : String → Out
  | logCancelled : Out
  | waited : Nat → Out
deriving DecidableEq

/-- Worker state: location, current backoff delay, the `wsConn` variable
(a connection id), the stack of deferred `Close` receivers, the ids whose
`Close()` has actually been invoked (in call order, with multiplicity), a
fresh-id source, the number of dial attempts made, and the emission trace. -/
structure MState where
  loc : Loc
  delay : Nat
  conn : Option Nat
  defers : List Nat
  closes : List Nat
  nextConn : Nat
  dials : Nat
  out : List Out
deriving DecidableEq

/-- Run the deferred `Close` calls (function return or panic unwinding):
LIFO over the defer stack. -/
def runDefers (s : MState) : MState :=
  { s with closes := s.closes ++ s.defers, defers := [] }

/-- One scheduling step of the worker at its current location, given the
oracle event observed there.  Events that cannot occur at a location leave
the state unchanged; `terminated` and `panicked` are absorbing. -/
def step (s : MState) (e : Ev) : MState :=
  match s.loc, e with
  | .top, .cancelled =>
    runDefers { s with loc := .terminated, out := .logCancelled :: s.out }
  | .top, .notCancelled => { s with loc := .dial }
  | .dial, .dialOk =>
    { s with loc := .recvCheck, conn := some s.nextConn,
             defers := s.nextConn :: s.defers, delay := initialDelay,
             nextConn := s.nextConn + 1, dials := s.dials + 1,
             out := .logConnected :: s.out }
  | .dial, .dialFail =>
    { s with loc := .backoffDial, dials := s.dials + 1, out := .logDialFail :: s.out }
  | .backoffDial, .cancelled =>
    runDefers { s with loc := .terminated, out := .logCancelled :: s.out }
  | .backoffDial, .elapse =>
    { s with loc := .top, delay := min (2 * s.delay) maxDelay,
             out := .waited s.delay :: s.out }
  | .recvCheck, .cancelled =>
    match s.conn with
    | some c =>
      runDefers { s with loc := .terminated, defers := c :: s.defers,
                         out := .logCancelled :: s.out }
    | none => runDefers { s with loc := .terminated, out := .logCancelled :: s.out }
  | .recvCheck, .notCancelled => { s with loc := .read }
  | .read, .readOk p =>
    match unmarshalStasisEvent p with
    | .ok ev => { s with loc := .recvCheck, out := .logEvent ev.type :: s.out }
    | .err _ => { s with loc := .recvCheck, out := .logDecodeErr :: s.out }
    | .panicked _ => runDefers { s with loc := .panicked }
  | .read, .readErr =>
    { s with loc := .backoffOuter, out := .logReadErr :: s.out }
  | .backoffOuter, .cancelled =>
    runDefers { s with loc := .terminated, out := .logCancelled :: s.out }
  | .backoffOuter, .elapse =>
    { s with loc := .top, delay := min (2 * s.delay) maxDelay,
             out := .waited s.delay :: s.out }
  | _, _ => s

/-- Run the worker over a trace of oracle events. -/
def run (s : MState) (evs : List Ev) : MState :=
  evs.foldl step s

/-- The worker's state on entry to `connectWebSocketAndStartStasis`. -/
def initState : MState :=
  { loc := .top, delay := initialDelay, conn := none, defers := [], closes := [],
    nextConn := 1, dials := 0, out := [] }

/-- One dial-failure cycle: the top cancellation check passes, the dial
fails, the backoff wait elapses. -/
def failCycle : List Ev := [.notCancelled, .dialFail, .elapse]

/-- A failure cycle whose failure is a read error: the dial succeeds, the
receive loop's cancellation check passes, the read fails, the reconnect
wait elapses. -/
def readFailFirstCycle : List Ev := [.notCancelled, .dialOk, .notCancelled, .readErr, .elapse]

/-- The worker state after `n` consecutive failures (and their backoff
waits) with no intervening successful session; when `b` is true the first
failure is a read failure on a successfully dialed connection, otherwise
all failures are dial failures. -/
def afterFails (b : Bool) : Nat → MState
  | 0 => initState
  | n + 1 => run (afterFails b n) (if b && n == 0 then readFailFirstCycle else failCycle)

/-- Whether a JSON value decodes into a Go `string` field without a type
error (`null` is a no-op, a string sets it). -/
def isStrOrNull : Json → Bool
  | .str _ => true
  | .null => true
  | _ => false

/-- The effective field tags of `StasisEvent` on the wire. -/
def knownTags : List String :=
  ["application", "args", "asterisk_id", "channel", "timestamp", "type", "value", "variable"]

/-- Whether an incoming object key matches any `StasisEvent` field tag
(ASCII-case-insensitively, as `encoding/json` matches). -/
def knownKeyB (k : String) : Bool :=
  knownTags.any (fun t => foldNameEq k t)

/-- Whether the payload has a key that matches the `type` field tag. -/
def hasTypeKey (fields : List (String × Json)) : Bool :=
  fields.any (fun kv => foldNameEq kv.1 "type")

/-- Modelled from the spec's words, for comparison with the code's parser:
a string in exactly the layout `YYYY-MM-DDTHH:MM:SS.mmm±HHMM` — four year
digits, two digits for month, day, hour, minute and second, a period, three
millisecond digits, and a numeric sign plus four offset digits, nothing
else.  (The code's `time.Parse` accepts slightly more: a single-digit hour
and a comma before the milliseconds.) -/
def specExactLayout (cs : List Char) : Bool :=
  match cs with
  | [y1, y2, y3, y4, '-', m1, m2, '-', d1, d2, 'T', h1, h2, ':', n1, n2, ':', s1, s2,
     '.', f1, f2, f3, sg, o1, o2, o3, o4] =>
    y1.isDigit && y2.isDigit && y3.isDigit && y4.isDigit &&
    m1.isDigit && m2.isDigit && d1.isDigit && d2.isDigit &&
    h1.isDigit && h2.isDigit && n1.isDigit && n2.isDigit &&
    s1.isDigit && s2.isDigit && f1.isDigit && f2.isDigit && f3.isDigit &&
    (sg = '+' || sg = '-') &&
    o1.isDigit && o2.isDigit && o3.isDigit && o4.isDigit
  | _ => false

theorem stepField_of_aborted (r : AbortReason) (f : String × Json) :
    stepField (.aborted r) f = .aborted r := rfl

theorem decodeFields_aborted (fields : List (String × Json)) (r : AbortReason) :
    decodeFields (.aborted r) fields = .aborted r := by
  induction fields with
  | nil => rfl
  | cons f rest ih =>
    rw [decodeFields, List.foldl_cons, stepField_of_aborted]
    exact ih

theorem finish_aborted_notOk (r : AbortReason) : (finish (.aborted r)).isOk = false := by
  cases r <;> rfl

theorem strip_quotes (l : List Char) : (('"' :: l ++ ['"']).drop 1).dropLast = l := by
  simp

theorem stepField_timestamp_str (e : StasisEvent) (sv : Option String) (ts : String) :
    stepField (.going e sv) ("timestamp", .str ts) =
      match parseEventTime ts.data with
      | some t => .going { e with timestamp := t } sv
      | none => .aborted (.err "parsing time: cannot parse as 2006-01-02T15:04:05.000-0700") := by
  show timestampStep (.str ts) e sv = _
  rw [timestampStep]
  have hlen : ¬ (rawChars (.str ts)).length < 2 := by
    simp [rawChars]
  rw [if_neg hlen]
  have hstrip : ((rawChars (.str ts)).drop 1).dropLast = ts.data := by
    rw [rawChars]
    exact strip_quotes ts.data
  rw [hstrip]

theorem decodeFields_timestamp_bad (fields : List (String × Json)) :
    ∀ (st : DecState) (ts : String), parseEventTime ts.data = none →
      ("timestamp", Json.str ts) ∈ fields →
      (finish (decodeFields st fields)).isOk = false := by
  induction fields with
  | nil => intro st ts _ hmem; cases hmem
  | cons f rest ih =>
    intro st ts hp hmem
    rw [decodeFields, List.foldl_cons]
    rcases List.mem_cons.mp hmem with heq | hmem'
    · subst heq
      cases st with
      | aborted r =>
        rw [stepField_of_aborted]
        rw [show List.foldl stepField (DecState.aborted r) rest = decodeFields (.aborted r) rest from rfl,
          decodeFields_aborted]
        exact finish_aborted_notOk r
      | going e sv =>
        rw [stepField_timestamp_str, hp]
        rw [show List.foldl stepField (DecState.aborted _) rest = decodeFields (.aborted _) rest from rfl,
          decodeFields_aborted]
        exact finish_aborted_notOk _
    · exact ih (stepField st f) ts hp hmem'

/-- C4 (amended): a payload whose `timestamp` field is a string that the
code's layout parser (`time.Parse` with `2006-01-02T15:04:05.000-0700`)
rejects never decodes into an envelope — so no envelope with a zero/default
timestamp is ever produced — and, unless some other field's decoding
panics, the whole envelope decode returns a decode error. -/
theorem C4_bad_timestamp_fails (fields : List (String × Json)) (ts : String)
    (hmem : ("timestamp", Json.str ts) ∈ fields)
    (hp : parseEventTime ts.data = none) :
    (unmarshalStasisEvent (.obj fields)).isOk = false ∧
    ((unmarshalStasisEvent (.obj fields)).isPanicked = false →
      (unmarshalStasisEvent (.obj fields)).isErr = true) := by
  have hnotOk : (unmarshalStasisEvent (.obj fields)).isOk = false :=
    decodeFields_timestamp_bad fields _ ts hp hmem
  refine ⟨hnotOk, fun hnp => ?_⟩
  cases hu : unmarshalStasisEvent (.obj fields) with
  | ok e => rw [hu] at hnotOk; exact absurd hnotOk (by simp [Outcome.isOk])
  | err m => rfl
  | panicked m => rw [hu] at hnp; exact absurd hnp (by simp [Outcome.isPanicked])

/-- C4 witness: the spec's own example `"2024-01-02 03:04:05"` is rejected
by the layout parser, and a payload carrying it never decodes. -/
theorem C4_bad_timestamp_fails_witness :
    parseEventTime "2024-01-02 03:04:05".data = none ∧
    (unmarshalStasisEvent (Json.obj [("type", Json.str "StasisStart"),
      ("timestamp", Json.str "2024-01-02 03:04:05")])).isOk = false :=
  ⟨rfl, (C4_bad_timestamp_fails _ "2024-01-02 03:04:05"
      (List.mem_cons_of_mem _ (List.mem_singleton.mpr rfl)) rfl).1⟩

/-- C4 counterexample: the claim as stated is false — the string
`2024-01-02T3:04:05.123+0000` deviates from the exact layout
`YYYY-MM-DDTHH:MM:SS.mmm±HHMM` (single-digit hour), yet Go's `time.Parse`
accepts it for this layout (the hour element is parsed with `fixed = false`),
so the payload decodes into an envelope successfully. -/
theorem C4_counterexample :
    specExactLayout "2024-01-02T3:04:05.123+0000".data = false ∧
    (unmarshalStasisEvent (Json.obj [("timestamp",
      Json.str "2024-01-02T3:04:05.123+0000")])).isOk = true :=
  ⟨rfl, rfl⟩

theorem strFieldStep_saved (v : Json) (upd : String → StasisEvent) (e : StasisEvent)
    (m : String) : ∃ e', strFieldStep v upd e (some m) = .going e' (some m) := by
  cases v <;> exact ⟨_, rfl⟩

theorem argsStep_saved (v : Json) (e : StasisEvent) (m : String) :
    ∃ e', argsStep v e (some m) = .going e' (some m) := by
  cases v with
  | arr xs =>
    refine ⟨{ e with args := xs.map argElem }, ?_⟩
    simp only [argsStep]
    cases hx : xs.any argElemBad <;> simp [hx, savedOr]
  | null => exact ⟨e, rfl⟩
  | bool b => exact ⟨e, rfl⟩
  | num s => exact ⟨e, rfl⟩
  | str s => exact ⟨e, rfl⟩
  | obj fs => exact ⟨e, rfl⟩

theorem channelStep_saved (v : Json) (e : StasisEvent) (m : String) :
    ∃ e', channelStep v e (some m) = .going e' (some m) := by
  cases v <;> exact ⟨_, rfl⟩

theorem timestampStep_saved (v : Json) (e : StasisEvent) (m : String) :
    (∃ e', timestampStep v e (some m) = .going e' (some m)) ∨
    (∃ r, timestampStep v e (some m) = .aborted r) := by
  simp only [timestampStep]
  split_ifs
  · exact Or.inr ⟨_, rfl⟩
  · cases hp : parseEventTime ((rawChars v).drop 1).dropLast with
    | some t => exact Or.inl ⟨_, rfl⟩
    | none => exact Or.inr ⟨_, rfl⟩

theorem stepField_going_saved (e : StasisEvent) (m : String) (k : String) (v : Json) :
    (∃ e', stepField (.going e (some m)) (k, v) = .going e' (some m)) ∨
    (∃ r, stepField (.going e (some m)) (k, v) = .aborted r) := by
  simp only [stepField]
  split_ifs
  · exact Or.inl (strFieldStep_saved v _ e m)
  · exact Or.inl (argsStep_saved v e m)
  · exact Or.inl (strFieldStep_saved v _ e m)
  · exact Or.inl (channelStep_saved v e m)
  · exact timestampStep_saved v e m
  · exact Or.inl (strFieldStep_saved v _ e m)
  · exact Or.inl (strFieldStep_saved v _ e m)
  · exact Or.inl (strFieldStep_saved v _ e m)
  · exact Or.inl ⟨e, rfl⟩

theorem decodeFields_saved_notOk (fields : List (String × Json)) :
    ∀ (e : StasisEvent) (m : String),
      (finish (decodeFields (.going e (some m)) fields)).isOk = false := by
  induction fields with
  | nil => intro e m; rfl
  | cons f rest ih =>
    intro e m
    obtain ⟨k, v⟩ := f
    rw [decodeFields, List.foldl_cons]
    rcases stepField_going_saved e m k v with ⟨e', he⟩ | ⟨r, hr⟩
    · rw [he]; exact ih e' m
    · rw [hr, show List.foldl stepField (DecState.aborted r) rest =
          decodeFields (.aborted r) rest from rfl, decodeFields_aborted]
      exact finish_aborted_notOk r

theorem stepField_value_red (e : StasisEvent) (sv : Option String) (v : Json) :
    stepField (.going e sv) ("value", v) =
      strFieldStep v (fun s => { e with value := s }) e sv := rfl

theorem stepField_variable_red (e : StasisEvent) (sv : Option String) (v : Json) :
    stepField (.going e sv) ("variable", v) =
      strFieldStep v (fun s => { e with variable' := s }) e sv := rfl

theorem decodeFields_badopt_notOk (fields : List (String × Json)) :
    ∀ (st : DecState) (k : String) (v : Json),
      (k = "value" ∨ k = "variable") → (k, v) ∈ fields → isStrOrNull v = false →
      (finish (decodeFields st fields)).isOk = false := by
  induction fields with
  | nil => intro st k v _ hmem _; cases hmem
  | cons f rest ih =>
    intro st k v hk hmem hbad
    rw [decodeFields, List.foldl_cons]
    rcases List.mem_cons.mp hmem with heq | hmem'
    · subst heq
      cases st with
      | aborted r =>
        rw [stepField_of_aborted, show List.foldl stepField (DecState.aborted r) rest =
            decodeFields (.aborted r) rest from rfl, decodeFields_aborted]
        exact finish_aborted_notOk r
      | going e sv =>
        rcases hk with rfl | rfl
        · rw [stepField_value_red]
          cases v with
          | str s => simp [isStrOrNull] at hbad
          | null => simp [isStrOrNull] at hbad
          | bool b => cases sv <;> exact decodeFields_saved_notOk rest e _
          | num s => cases sv <;> exact decodeFields_saved_notOk rest e _
          | arr xs => cases sv <;> exact decodeFields_saved_notOk rest e _
          | obj fs => cases sv <;> exact decodeFields_saved_notOk rest e _
        · rw [stepField_variable_red]
          cases v with
          | str s => simp [isStrOrNull] at hbad
          | null => simp [isStrOrNull] at hbad
          | bool b => cases sv <;> exact decodeFields_saved_notOk rest e _
          | num s => cases sv <;> exact decodeFields_saved_notOk rest e _
          | arr xs => cases sv <;> exact decodeFields_saved_notOk rest e _
          | obj fs => cases sv <;> exact decodeFields_saved_notOk rest e _
    · exact ih (stepField st f) k v hk hmem' hbad

/-- C10: a payload in which the optional `value` or `variable` field carries
a non-string, non-null JSON value makes the whole envelope decode fail with
a decode error (`encoding/json` saves the `UnmarshalTypeError` and returns
it), rather than ignoring the malformed optional field — provided no other
field's decoding panics. -/
theorem C10_bad_optional_fails (fields : List (String × Json)) (k : String) (v : Json)
    (hk : k = "value" ∨ k = "variable") (hmem : (k, v) ∈ fields)
    (hbad : isStrOrNull v = false)
    (hnp : (unmarshalStasisEvent (.obj fields)).isPanicked = false) :
    (unmarshalStasisEvent (.obj fields)).isErr = true := by
  have hno : (unmarshalStasisEvent (.obj fields)).isOk = false :=
    decodeFields_badopt_notOk fields _ k v hk hmem hbad
  cases hu : unmarshalStasisEvent (.obj fields) with
  | ok e => rw [hu] at hno; simp [Outcome.isOk] at hno
  | err m => rfl
  | panicked m => rw [hu] at hnp; simp [Outcome.isPanicked] at hnp

/-- C10 witness: `\x7b"value":1\x7d` fails the envelope decode with an error. -/
theorem C10_bad_optional_fails_witness :
    isStrOrNull (Json.num "1") = false ∧
    (unmarshalStasisEvent (Json.obj [("value", Json.num "1")])).isErr = true :=
  ⟨rfl, C10_bad_optional_fails _ "value" (Json.num "1") (Or.inl rfl)
    (List.mem_singleton.mpr rfl) rfl rfl⟩

theorem stepField_unknown (st : DecState) (k : String) (v : Json)
    (h : knownKeyB k = false) : stepField st (k, v) = st := by
  cases st with
  | aborted r => rfl
  | going e sv =>
    simp only [knownKeyB, knownTags, List.any_cons, List.any_nil, Bool.or_false,
      Bool.or_eq_false_iff] at h
    obtain ⟨h1, h2, h3, h4, h5, h6, h7, h8⟩ := h
    simp [stepField, h1, h2, h3, h4, h5, h6, h7, h8]

/-- C9: unrecognized extra keys in the payload are ignored by `json.Unmarshal`
(only keys matching a `StasisEvent` field tag, ASCII-case-insensitively, are
consumed): inserting a member with an unknown key anywhere in the payload
leaves the decode result — success or failure, and the resulting envelope —
unchanged, so decode of an otherwise valid payload still succeeds. -/
theorem C9_unknown_keys_ignored (pre rest : List (String × Json)) (k : String) (v : Json)
    (h : knownKeyB k = false) :
    unmarshalStasisEvent (.obj (pre ++ (k, v) :: rest)) =
      unmarshalStasisEvent (.obj (pre ++ rest)) := by
  show finish (decodeFields _ _) = finish (decodeFields _ _)
  rw [decodeFields, decodeFields, List.foldl_append, List.foldl_append, List.foldl_cons,
    stepField_unknown _ k v h]

/-- C9 witness: adding the unknown key `x_extra` to a valid payload does not
change the decode result. -/
theorem C9_unknown_keys_ignored_witness :
    knownKeyB "x_extra" = false ∧
    unmarshalStasisEvent (Json.obj [("type", Json.str "StasisStart"), ("x_extra", Json.num "42")]) =
      unmarshalStasisEvent (Json.obj [("type", Json.str "StasisStart")]) :=
  ⟨rfl, C9_unknown_keys_ignored [("type", Json.str "StasisStart")] [] "x_extra" (Json.num "42") rfl⟩

theorem finish_ok (st : DecState) (e : StasisEvent) (h : finish st = .ok e) :
    st = .going e none := by
  cases st with
  | going e' sv =>
    cases sv with
    | none => simp only [finish, Outcome.ok.injEq] at h; rw [h]
    | some m => simp [finish] at h
  | aborted r => cases r <;> simp [finish] at h

theorem stepField_type_eq (k : String) (v : Json) (e e' : StasisEvent)
    (sv sv' : Option String) (hk : foldNameEq k "type" = false)
    (h : stepField (.going e sv) (k, v) = .going e' sv') : e'.type = e.type := by
  simp only [stepField] at h
  split_ifs at h with h1 h2 h3 h4 h5 h6 h7 h8
  · cases v <;> simp only [strFieldStep, DecState.going.injEq] at h <;> rw [← h.1]
  · cases v <;> simp only [argsStep, DecState.going.injEq] at h <;> rw [← h.1]
  · cases v <;> simp only [strFieldStep, DecState.going.injEq] at h <;> rw [← h.1]
  · cases v <;> simp only [channelStep, DecState.going.injEq] at h <;> rw [← h.1]
  · simp only [timestampStep] at h
    by_cases hl : (rawChars v).length < 2
    · rw [if_pos hl] at h; exact absurd h (by simp)
    · rw [if_neg hl] at h
      split at h
      · simp only [DecState.going.injEq] at h
        rw [← h.1]
      · exact absurd h (by simp)
  · simp [hk] at h6
  · cases v <;> simp only [strFieldStep, DecState.going.injEq] at h <;> rw [← h.1]
  · cases v <;> simp only [strFieldStep, DecState.going.injEq] at h <;> rw [← h.1]
  · simp only [DecState.going.injEq] at h
    rw [← h.1]

theorem decodeFields_no_type (fields : List (String × Json)) :
    ∀ (st : DecState) (e : StasisEvent) (sv : Option String),
      hasTypeKey fields = false → decodeFields st fields = .going e sv →
      ∀ (e0 : StasisEvent) (sv0 : Option String), st = .going e0 sv0 →
        e.type = e0.type := by
  induction fields with
  | nil =>
    intro st e sv _ hdec e0 sv0 hst
    rw [hst] at hdec
    simp only [decodeFields, List.foldl_nil, DecState.going.injEq] at hdec
    rw [hdec.1]
  | cons f rest ih =>
    intro st e sv hty hdec e0 sv0 hst
    obtain ⟨k, v⟩ := f
    have hk : foldNameEq k "type" = false ∧ hasTypeKey rest = false := by
      simpa [hasTypeKey, List.any_cons, Bool.or_eq_false_iff] using hty
    rw [hst, decodeFields, List.foldl_cons] at hdec
    cases hstep : stepField (.going e0 sv0) (k, v) with
    | aborted r =>
      rw [hstep, show List.foldl stepField (DecState.aborted r) rest =
          decodeFields (.aborted r) rest from rfl, decodeFields_aborted] at hdec
      exact absurd hdec (by simp)
    | going e1 sv1 =>
      rw [hstep] at hdec
      have ht1 : e.type = e1.type := ih _ e sv hk.2 hdec e1 sv1 rfl
      rw [ht1, stepField_type_eq k v e0 e1 sv0 sv1 hk.1 hstep]

/-- C5 (amended): a payload lacking any key matching the `type` field tag
still decodes (Go `json.Unmarshal` treats every missing field as a no-op);
the resulting envelope's `eventType` is then the zero value, the empty
string — the `type` field is structurally always present but is not
required on the wire. -/
theorem C5_missing_type_amended (fields : List (String × Json)) (e : StasisEvent)
    (hty : hasTypeKey fields = false)
    (hok : unmarshalStasisEvent (.obj fields) = .ok e) : e.type = "" := by
  have h1 : finish (decodeFields (.going zeroStasisEvent none) fields) = .ok e := hok
  exact decodeFields_no_type fields _ e none hty (finish_ok _ e h1) zeroStasisEvent none rfl

/-- C5 counterexample: the claim as stated is false — a payload entirely
lacking the `type` key does decode into an envelope (with `type` left at
its zero value, the empty string), because `encoding/json` never requires
any key to be present. -/
theorem C5_counterexample :
    unmarshalStasisEvent (Json.obj []) = .ok zeroStasisEvent ∧
    zeroStasisEvent.type = "" :=
  ⟨rfl, rfl⟩

/-- C5 witness: a payload with only `application` decodes and its envelope
carries the empty `eventType`. -/
theorem C5_missing_type_amended_witness :
    hasTypeKey [("application", Json.str "demo")] = false ∧
    ({ application := "demo", args := [], asteriskId := "", channel := Json.null,
       timestamp := zeroEventTime, type := "", value := "",
       variable' := "" } : StasisEvent).type = "" :=
  ⟨rfl, C5_missing_type_amended [("application", Json.str "demo")] _ rfl rfl⟩

/-- C3 evaluation (code bug): the payload `\x7b"timestamp":1\x7d` makes decode
panic and escape the caller — `UnmarshalJSON` receives the one-byte raw
value `1` and slices `timestampStr[1:0]`, a slice-bounds violation that
`encoding/json` does not recover, contradicting the requirement that decode
never panic. -/
theorem C3_decode_panics_eval :
    (unmarshalStasisEvent (Json.obj [("timestamp", Json.num "1")])).isPanicked = true := rfl

/-- C2 evaluation (code bug): `defer wsConn.Close()` inside the loop only
runs at function return.  First run: dial a connection (id 1), read fails,
backoff elapses, dial again — the second dial attempt happens while
connection 1 has never been closed.  Second run: dial a connection and
cancel while connected — the worker terminates having invoked `Close` on
connection 1 twice (the line-111 and line-123 defers), not exactly once. -/
theorem C2_close_code_eval :
    ((run initState [.notCancelled, .dialOk, .notCancelled, .readErr, .elapse,
        .notCancelled, .dialOk]).dials = 2 ∧
      (run initState [.notCancelled, .dialOk, .notCancelled, .readErr, .elapse,
        .notCancelled, .dialOk]).closes = []) ∧
    ((run initState [.notCancelled, .dialOk, .cancelled]).loc = .terminated ∧
      (run initState [.notCancelled, .dialOk, .cancelled]).closes = [1, 1]) :=
  ⟨⟨rfl, rfl⟩, rfl, rfl⟩

/-- C6: if cancellation is observed while the worker waits in either backoff
state (after a dial failure or after a read failure), one step moves it to
`terminated` with no further dial attempt, and the terminated state is
absorbing. -/
theorem C6_cancel_during_backoff (s : MState)
    (h : s.loc = .backoffDial ∨ s.loc = .backoffOuter) :
    (step s .cancelled).loc = .terminated ∧
    (step s .cancelled).dials = s.dials ∧
    ∀ e : Ev, step (step s .cancelled) e = step s .cancelled := by
  obtain ⟨loc, d, c, df, cl, nc, di, o⟩ := s
  rcases h with h | h <;> dsimp only at h <;> subst h <;>
    exact ⟨rfl, rfl, fun e => by cases e <;> rfl⟩

/-- C6 witness. -/
theorem C6_cancel_during_backoff_witness :
    (step ⟨.backoffOuter, 4, some 1, [1], [], 2, 2, []⟩ .cancelled).loc = .terminated ∧
    step (step ⟨.backoffOuter, 4, some 1, [1], [], 2, 2, []⟩ .cancelled) .dialOk =
      step ⟨.backoffOuter, 4, some 1, [1], [], 2, 2, []⟩ .cancelled :=
  ⟨(C6_cancel_during_backoff _ (Or.inr rfl)).1,
   (C6_cancel_during_backoff _ (Or.inr rfl)).2.2 .dialOk⟩

/-- C7: while connected, a message whose decode fails with a decode error is
non-fatal: the worker reports it and goes back to the read loop on the same
connection, closing nothing and leaving the backoff delay untouched; only a
read error leaves the session, to the outer backoff state (still without
closing anything before the reconnect). -/
theorem C7_decode_error_nonfatal (s : MState) (p : Json)
    (hloc : s.loc = .recvCheck)
    (hdec : (unmarshalStasisEvent p).isErr = true) :
    ((run s [.notCancelled, .readOk p]).loc = .recvCheck ∧
      (run s [.notCancelled, .readOk p]).conn = s.conn ∧
      (run s [.notCancelled, .readOk p]).closes = s.closes ∧
      (run s [.notCancelled, .readOk p]).delay = s.delay ∧
      (run s [.notCancelled, .readOk p]).out = .logDecodeErr :: s.out) ∧
    ((run s [.notCancelled, .readErr]).loc = .backoffOuter ∧
      (run s [.notCancelled, .readErr]).closes = s.closes) := by
  cases hu : unmarshalStasisEvent p with
  | ok e => rw [hu] at hdec; simp [Outcome.isErr] at hdec
  | panicked m => rw [hu] at hdec; simp [Outcome.isErr] at hdec
  | err m =>
    obtain ⟨loc, d, c, df, cl, nc, di, o⟩ := s
    dsimp only at hloc
    subst hloc
    refine ⟨⟨?_, ?_, ?_, ?_, ?_⟩, rfl, rfl⟩ <;> simp [run, step, hu]

/-- C7 witness. -/
theorem C7_decode_error_nonfatal_witness :
    (run ⟨.recvCheck, 5, some 1, [1], [], 2, 1, []⟩
      [.notCancelled, .readOk (Json.str "oops")]).loc = .recvCheck ∧
    (run ⟨.recvCheck, 5, some 1, [1], [], 2, 1, []⟩ [.notCancelled, .readErr]).loc =
      .backoffOuter :=
  ⟨(C7_decode_error_nonfatal ⟨.recvCheck, 5, some 1, [1], [], 2, 1, []⟩
      (Json.str "oops") rfl rfl).1.1,
   (C7_decode_error_nonfatal ⟨.recvCheck, 5, some 1, [1], [], 2, 1, []⟩
      (Json.str "oops") rfl rfl).2.1⟩

/-- C8: a successful dial resets the backoff delay to the floor immediately
(before any message is read), so the wait performed after the next failure —
a read error on the fresh connection — equals the floor `initialDelay`. -/
theorem C8_reset_on_success (s : MState) (h : s.loc = .dial) :
    (step s .dialOk).delay = initialDelay ∧
    (step s .dialOk).loc = .recvCheck ∧
    (run s [.dialOk, .notCancelled, .readErr, .elapse]).out.head? =
      some (.waited initialDelay) := by
  obtain ⟨loc, d, c, df, cl, nc, di, o⟩ := s
  dsimp only at h
  subst h
  exact ⟨rfl, rfl, rfl⟩

/-- C8 witness: even from a large current delay, a successful dial resets to
the floor and the next failure waits exactly the floor. -/
theorem C8_reset_on_success_witness :
    (step ⟨.dial, 37, none, [], [], 5, 7, []⟩ .dialOk).delay = initialDelay ∧
    (run ⟨.dial, 37, none, [], [], 5, 7, []⟩
      [.dialOk, .notCancelled, .readErr, .elapse]).out.head? =
      some (.waited initialDelay) :=
  ⟨(C8_reset_on_success _ rfl).1, (C8_reset_on_success _ rfl).2.2⟩

theorem minDouble (k : Nat) : min (2 * min (2 ^ k) 60) 60 = min (2 ^ (k + 1)) 60 := by
  rcases Nat.le_total (2 ^ k) 60 with h | h
  · rw [Nat.min_eq_left h, pow_succ, Nat.mul_comm]
  · have h2 : (60 : Nat) ≤ 2 ^ (k + 1) :=
      le_trans h (Nat.pow_le_pow_right (by norm_num) (Nat.le_succ k))
    rw [Nat.min_eq_right h, Nat.min_eq_right h2]
    norm_num

theorem run_failCycle (s : MState) (h : s.loc = .top) :
    (run s failCycle).loc = .top ∧
    (run s failCycle).delay = min (2 * s.delay) maxDelay ∧
    (run s failCycle).out = .waited s.delay :: .logDialFail :: s.out := by
  obtain ⟨loc, d, c, df, cl, nc, di, o⟩ := s
  dsimp only at h
  subst h
  exact ⟨rfl, rfl, rfl⟩

theorem afterFails_inv (b : Bool) (N : Nat) :
    (afterFails b N).loc = .top ∧
    (afterFails b N).delay = min (2 ^ N) 60 ∧
    (1 ≤ N → (afterFails b N).out.head? = some (.waited (min (2 ^ (N - 1)) 60))) := by
  induction N with
  | zero => exact ⟨rfl, rfl, fun hN => absurd hN (by omega)⟩
  | succ n ih =>
    by_cases hb : b && n == 0
    · have hb' : b = true ∧ n = 0 := by
        simpa [Bool.and_eq_true] using hb
      rw [afterFails, if_pos hb, hb'.2]
      exact ⟨rfl, rfl, fun _ => rfl⟩
    · rw [afterFails, if_neg hb]
      obtain ⟨hloc, hdelay, _⟩ := ih
      obtain ⟨h1, h2, h3⟩ := run_failCycle (afterFails b n) hloc
      refine ⟨h1, ?_, fun _ => ?_⟩
      · rw [h2, hdelay, show maxDelay = 60 from rfl, minDouble]
      · rw [h3, hdelay]
        simp

/-- C1 counterexample: the claim's formula is off by one.  After `N = 1`
failure the worker waits the floor `initialDelay` before attempt 2 (the
code waits the current delay and doubles it afterwards), while the claim
demands `min(d0 * 2^1, ceiling)`, which is twice the floor. -/
theorem C1_counterexample :
    (run initState failCycle).out.head? = some (.waited initialDelay) ∧
    initialDelay ≠ min (initialDelay * 2 ^ 1) maxDelay :=
  ⟨rfl, by decide⟩

/-- C1 (amended): starting from the floor delay, after `N ≥ 1` consecutive
failures with no intervening successful session — all dial failures, or a
read failure on one successful dial followed by dial failures — the wait
performed before attempt `N + 1` equals `min(d0 * 2^(N-1), ceiling)`, where
the ceiling is 60 times the floor (`maxDelay = 60 * initialDelay`). -/
theorem C1_backoff_amended (b : Bool) (N : Nat) (h : 1 ≤ N) :
    (afterFails b N).out.head? =
      some (.waited (min (initialDelay * 2 ^ (N - 1)) maxDelay)) := by
  have := (afterFails_inv b N).2.2 h
  simpa [initialDelay, maxDelay] using this

/-- C1 witness: after three straight dial failures the wait before attempt 4
is `min(1 * 2^2, 60) = 4` seconds. -/
theorem C1_backoff_amended_witness :
    (afterFails false 3).out.head? =
      some (.waited (min (initialDelay * 2 ^ (3 - 1)) maxDelay)) :=
  C1_backoff_amended false 3 (by omega)
